import Mathlib

/-!
Verification of the field-extraction core of `invoice_processor.py`
(function `extract_info_from_text`, source lines 36-87).

The Python function scans raw invoice text with four regular expressions
(via `re.search`, i.e. leftmost-match semantics) and returns a dict with
the keys `amount`, `buyer`, `seller`, `date`, each bound to a possibly
empty string:

* amount: `(?:Total|Amount|Balance due|Invoice Total)[:\s]*[\$€£]?\s*([\d,]+\.?\d*)`
  with IGNORECASE; on a match the group has its commas removed and is
  stripped of surrounding whitespace.
* date: first `Date[:\s]*(\d{1,2}[/\-.]\d{1,2}[/\-.]\d{2,4})`, and only if
  that finds nothing, `(?:Invoice Date|Bill Date)[:\s]*(\w+\s+\d{1,2},\s+\d{4})`
  (both IGNORECASE); the group is stripped.
* buyer: `Bill To[:\s]*(.*?)(?:\n|$)` with IGNORECASE and DOTALL; the
  group is stripped and only its first line kept.
* seller: `(?:From|Seller|Vendor)[:\s]*(.*?)(?:\n|$)` likewise.

The embedding below models each regex by a character-level matcher that
reproduces the behaviour of the Python backtracking engine on these
concrete patterns (ordered alternation, greedy and lazy repetition), and
models `re.search` by trying the matcher at every start position from the
left, leftmost match winning.  The classes `\s` and `\d` are modelled
exactly (Python's 29 whitespace characters; the Unicode Nd decimal
digits); `\w` uses the exact digits with an ASCII approximation of the
letters; IGNORECASE is modelled by ASCII lowercasing.  Python strings
are modelled as `List Char` and the result dict both as a record with the
four fields and as an association list mirroring the dict operations.
-/

namespace InvoiceProcessor

/-- Python regex class `\s` / `str.strip` whitespace: ASCII whitespace and
the common Unicode whitespace characters. -/
def isPySpace (c : Char) : Bool :=
  c == ' ' || c == '\t' || c == '\n' || c == '\r' || c == '\x0b' || c == '\x0c' ||
  c == '\x1c' || c == '\x1d' || c == '\x1e' || c == '\x1f' || c == '\x85' || c == '\xa0' ||
  c == '\u1680' || c == '\u2000' || c == '\u2001' || c == '\u2002' || c == '\u2003' ||
  c == '\u2004' || c == '\u2005' || c == '\u2006' || c == '\u2007' || c == '\u2008' ||
  c == '\u2009' || c == '\u200a' || c == '\u2028' || c == '\u2029' || c == '\u202f' ||
  c == '\u205f' || c == '\u3000'

/-- The class `[:\s]` that follows every label in the source patterns. -/
def isColonSpace (c : Char) : Bool :=
  c == ':' || isPySpace c

/-- The class `[/\-.]` separating the parts of a numeric date. -/
def isSep (c : Char) : Bool :=
  c == '/' || c == '-' || c == '.'

/-- Python regex class `\d`: exactly the Unicode decimal digits
(category Nd, Unicode 14.0 as in the CPython 3.11 Unicode database that
the program runs on), given as the 62 contiguous ranges of code
points. -/
def isPyDigit (c : Char) : Bool :=
  (0x30 ≤ c.toNat && c.toNat ≤ 0x39) ||
  (0x660 ≤ c.toNat && c.toNat ≤ 0x669) ||
  (0x6f0 ≤ c.toNat && c.toNat ≤ 0x6f9) ||
  (0x7c0 ≤ c.toNat && c.toNat ≤ 0x7c9) ||
  (0x966 ≤ c.toNat && c.toNat ≤ 0x96f) ||
  (0x9e6 ≤ c.toNat && c.toNat ≤ 0x9ef) ||
  (0xa66 ≤ c.toNat && c.toNat ≤ 0xa6f) ||
  (0xae6 ≤ c.toNat && c.toNat ≤ 0xaef) ||
  (0xb66 ≤ c.toNat && c.toNat ≤ 0xb6f) ||
  (0xbe6 ≤ c.toNat && c.toNat ≤ 0xbef) ||
  (0xc66 ≤ c.toNat && c.toNat ≤ 0xc6f) ||
  (0xce6 ≤ c.toNat && c.toNat ≤ 0xcef) ||
  (0xd66 ≤ c.toNat && c.toNat ≤ 0xd6f) ||
  (0xde6 ≤ c.toNat && c.toNat ≤ 0xdef) ||
  (0xe50 ≤ c.toNat && c.toNat ≤ 0xe59) ||
  (0xed0 ≤ c.toNat && c.toNat ≤ 0xed9) ||
  (0xf20 ≤ c.toNat && c.toNat ≤ 0xf29) ||
  (0x1040 ≤ c.toNat && c.toNat ≤ 0x1049) ||
  (0x1090 ≤ c.toNat && c.toNat ≤ 0x1099) ||
  (0x17e0 ≤ c.toNat && c.toNat ≤ 0x17e9) ||
  (0x1810 ≤ c.toNat && c.toNat ≤ 0x1819) ||
  (0x1946 ≤ c.toNat && c.toNat ≤ 0x194f) ||
  (0x19d0 ≤ c.toNat && c.toNat ≤ 0x19d9) ||
  (0x1a80 ≤ c.toNat && c.toNat ≤ 0x1a89) ||
  (0x1a90 ≤ c.toNat && c.toNat ≤ 0x1a99) ||
  (0x1b50 ≤ c.toNat && c.toNat ≤ 0x1b59) ||
  (0x1bb0 ≤ c.toNat && c.toNat ≤ 0x1bb9) ||
  (0x1c40 ≤ c.toNat && c.toNat ≤ 0x1c49) ||
  (0x1c50 ≤ c.toNat && c.toNat ≤ 0x1c59) ||
  (0xa620 ≤ c.toNat && c.toNat ≤ 0xa629) ||
  (0xa8d0 ≤ c.toNat && c.toNat ≤ 0xa8d9) ||
  (0xa900 ≤ c.toNat && c.toNat ≤ 0xa909) ||
  (0xa9d0 ≤ c.toNat && c.toNat ≤ 0xa9d9) ||
  (0xa9f0 ≤ c.toNat && c.toNat ≤ 0xa9f9) ||
  (0xaa50 ≤ c.toNat && c.toNat ≤ 0xaa59) ||
  (0xabf0 ≤ c.toNat && c.toNat ≤ 0xabf9) ||
  (0xff10 ≤ c.toNat && c.toNat ≤ 0xff19) ||
  (0x104a0 ≤ c.toNat && c.toNat ≤ 0x104a9) ||
  (0x10d30 ≤ c.toNat && c.toNat ≤ 0x10d39) ||
  (0x11066 ≤ c.toNat && c.toNat ≤ 0x1106f) ||
  (0x110f0 ≤ c.toNat && c.toNat ≤ 0x110f9) ||
  (0x11136 ≤ c.toNat && c.toNat ≤ 0x1113f) ||
  (0x111d0 ≤ c.toNat && c.toNat ≤ 0x111d9) ||
  (0x112f0 ≤ c.toNat && c.toNat ≤ 0x112f9) ||
  (0x11450 ≤ c.toNat && c.toNat ≤ 0x11459) ||
  (0x114d0 ≤ c.toNat && c.toNat ≤ 0x114d9) ||
  (0x11650 ≤ c.toNat && c.toNat ≤ 0x11659) ||
  (0x116c0 ≤ c.toNat && c.toNat ≤ 0x116c9) ||
  (0x11730 ≤ c.toNat && c.toNat ≤ 0x11739) ||
  (0x118e0 ≤ c.toNat && c.toNat ≤ 0x118e9) ||
  (0x11950 ≤ c.toNat && c.toNat ≤ 0x11959) ||
  (0x11c50 ≤ c.toNat && c.toNat ≤ 0x11c59) ||
  (0x11d50 ≤ c.toNat && c.toNat ≤ 0x11d59) ||
  (0x11da0 ≤ c.toNat && c.toNat ≤ 0x11da9) ||
  (0x16a60 ≤ c.toNat && c.toNat ≤ 0x16a69) ||
  (0x16ac0 ≤ c.toNat && c.toNat ≤ 0x16ac9) ||
  (0x16b50 ≤ c.toNat && c.toNat ≤ 0x16b59) ||
  (0x1d7ce ≤ c.toNat && c.toNat ≤ 0x1d7ff) ||
  (0x1e140 ≤ c.toNat && c.toNat ≤ 0x1e149) ||
  (0x1e2f0 ≤ c.toNat && c.toNat ≤ 0x1e2f9) ||
  (0x1e950 ≤ c.toNat && c.toNat ≤ 0x1e959) ||
  (0x1fbf0 ≤ c.toNat && c.toNat ≤ 0x1fbf9)

/-- The class `[\d,]` of the amount group. -/
def isDigitComma (c : Char) : Bool :=
  isPyDigit c || c == ','

/-- The class `[\$€£]` of currency symbols in the amount pattern. -/
def isCurrency (c : Char) : Bool :=
  c == '$' || c == '€' || c == '£'

/-- Python regex class `\w`: letters (ASCII approximation of the Unicode
letter categories), Unicode decimal digits, and the underscore. -/
def isWordChar (c : Char) : Bool :=
  c.isAlpha || isPyDigit c || c == '_'

/-- Case-insensitive literal match (IGNORECASE, ASCII folding): if the
label is a prefix of `cs` up to case, return the rest of `cs`. -/
def stripPrefixCI : List Char → List Char → Option (List Char)
  | [], cs => some cs
  | _ :: _, [] => none
  | l :: ls, c :: cs => if c.toLower = l.toLower then stripPrefixCI ls cs else none

/-- Try a label (one alternative of the leading alternation) at the
current position, then run the rest of the pattern. -/
def tryLabel (lab : String) (tail : List Char → Option (List Char)) (cs : List Char) :
    Option (List Char) :=
  match stripPrefixCI lab.toList cs with
  | some rest => tail rest
  | none => none

/-- Ordered alternation: the first alternative that yields a match wins,
as in the Python engine. -/
def firstSome (a b : Option (List Char)) : Option (List Char) :=
  match a with
  | some g => some g
  | none => b

/-- The group `([\d,]+\.?\d*)`: a nonempty greedy run of digits/commas,
then optionally a dot and a greedy run of digits.  Nothing follows the
group in the pattern, so greediness needs no backtracking here. -/
def amountNum (cs : List Char) : Option (List Char) :=
  match cs.takeWhile isDigitComma with
  | [] => none
  | d :: ds =>
    match cs.dropWhile isDigitComma with
    | '.' :: rest => some ((d :: ds) ++ '.' :: rest.takeWhile isPyDigit)
    | _ => some (d :: ds)

/-- The amount pattern after the label: `[:\s]*[\$€£]?\s*` then the group.
The skip classes are disjoint from `[\d,]`, so the greedy engine commits
to the maximal `[:\s]*` run, then to one currency symbol when present and
the maximal `\s*` run; if no digit/comma follows, backtracking into the
skips only re-exposes colon/whitespace/currency characters and the match
at this position fails. -/
def amountTail (cs : List Char) : Option (List Char) :=
  match cs.dropWhile isColonSpace with
  | [] => none
  | c :: rest =>
    if isCurrency c then amountNum (rest.dropWhile isPySpace)
    else amountNum (c :: rest)

/-- The amount matcher at one position: ordered alternation
`Total|Amount|Balance due|Invoice Total` followed by `amountTail`. -/
def amountAt (cs : List Char) : Option (List Char) :=
  firstSome (tryLabel "Total" amountTail cs)
    (firstSome (tryLabel "Amount" amountTail cs)
      (firstSome (tryLabel "Balance due" amountTail cs)
        (tryLabel "Invoice Total" amountTail cs)))

/-- `\d{1,2}[/\-.]`: greedily two digits then a separator; on failure the
engine retries with one digit, which can only succeed when the second
character is itself a separator (a digit is never a separator). -/
def d12sep : List Char → Option (List Char × List Char)
  | d1 :: d2 :: rest =>
    if isPyDigit d1 then
      if isPyDigit d2 then
        match rest with
        | s :: rest2 => if isSep s then some ([d1, d2, s], rest2) else none
        | [] => none
      else if isSep d2 then some ([d1, d2], rest) else none
    else none
  | _ => none

/-- The numeric-date pattern after the label `Date`:
`[:\s]*(\d{1,2}[/\-.]\d{1,2}[/\-.]\d{2,4})`.  `\d{2,4}` is greedy, capped
at four digits, and needs at least two; failures never profit from
backtracking into the earlier `\d{1,2}` pieces because a digit is never a
separator, nor into `[:\s]*` because colon/whitespace is never a digit. -/
def dateNumTail (cs : List Char) : Option (List Char) :=
  match d12sep (cs.dropWhile isColonSpace) with
  | none => none
  | some (p1, r1) =>
    match d12sep r1 with
    | none => none
    | some (p2, r2) =>
      if 2 ≤ (r2.takeWhile isPyDigit).length then
        some (p1 ++ p2 ++ (r2.takeWhile isPyDigit).take 4)
      else none

/-- The numeric-date matcher at one position: label `Date` then
`dateNumTail`. -/
def dateNumAt (cs : List Char) : Option (List Char) :=
  tryLabel "Date" dateNumTail cs

/-- `\d{1,2},`: greedily two digits then a comma; retrying with one digit
can only succeed when the second character is the comma itself. -/
def d12comma : List Char → Option (List Char × List Char)
  | d1 :: d2 :: rest =>
    if isPyDigit d1 then
      if isPyDigit d2 then
        match rest with
        | c :: rest2 => if c = ',' then some ([d1, d2, c], rest2) else none
        | [] => none
      else if d2 = ',' then some ([d1, d2], rest) else none
    else none
  | _ => none

/-- The textual-date pattern after the label:
`[:\s]*(\w+\s+\d{1,2},\s+\d{4})`.  The adjacent classes are pairwise
disjoint (`\w` vs `\s`, `\s` vs `\d`), so each greedy run is committed
maximally and failure at any later piece fails the position. -/
def dateTextTail (cs : List Char) : Option (List Char) :=
  match (cs.dropWhile isColonSpace).takeWhile isWordChar with
  | [] => none
  | w :: ws =>
    match ((cs.dropWhile isColonSpace).dropWhile isWordChar).takeWhile isPySpace with
    | [] => none
    | s :: ss =>
      match d12comma (((cs.dropWhile isColonSpace).dropWhile isWordChar).dropWhile isPySpace) with
      | none => none
      | some (dp, r3) =>
        match r3.takeWhile isPySpace with
        | [] => none
        | t :: ts =>
          match r3.dropWhile isPySpace with
          | a :: b :: c :: d :: _ =>
            if isPyDigit a && isPyDigit b && isPyDigit c && isPyDigit d then
              some ((w :: ws) ++ (s :: ss) ++ dp ++ (t :: ts) ++ [a, b, c, d])
            else none
          | _ => none

/-- The textual-date matcher at one position: ordered alternation
`Invoice Date|Bill Date` followed by `dateTextTail`. -/
def dateTextAt (cs : List Char) : Option (List Char) :=
  firstSome (tryLabel "Invoice Date" dateTextTail cs)
    (tryLabel "Bill Date" dateTextTail cs)

/-- The tail `[:\s]*(.*?)(?:\n|$)` (with DOTALL).  `[:\s]*` is greedy and
the rest always succeeds, so the skip run is maximal; the lazy `(.*?)`
then captures up to the first newline or the end of input.  This tail
never fails. -/
def lineTail (cs : List Char) : Option (List Char) :=
  some ((cs.dropWhile isColonSpace).takeWhile (fun c => c != '\n'))

/-- The buyer matcher at one position: literal label `Bill To` then
`lineTail`. -/
def buyerAt (cs : List Char) : Option (List Char) :=
  tryLabel "Bill To" lineTail cs

/-- The seller matcher at one position: ordered alternation
`From|Seller|Vendor` followed by `lineTail`. -/
def sellerAt (cs : List Char) : Option (List Char) :=
  firstSome (tryLabel "From" lineTail cs)
    (firstSome (tryLabel "Seller" lineTail cs)
      (tryLabel "Vendor" lineTail cs))

/-- `re.search`: try the matcher at every start position from the left
(including the empty suffix); return the start index and the captured
group of the leftmost match. -/
def searchIdx (m : List Char → Option (List Char)) : List Char → Option (Nat × List Char)
  | [] => (m []).map (fun g => (0, g))
  | c :: rest =>
    match m (c :: rest) with
    | some g => some (0, g)
    | none => (searchIdx m rest).map (fun p => (p.1 + 1, p.2))

/-- `re.search`, keeping only the captured group. -/
def searchM (m : List Char → Option (List Char)) (cs : List Char) : Option (List Char) :=
  (searchIdx m cs).map (fun p => p.2)

/-- Remove trailing Python whitespace (`str.rstrip`). -/
def dropTrail (l : List Char) : List Char :=
  (l.reverse.dropWhile isPySpace).reverse

/-- Python `str.strip`. -/
def pyStrip (l : List Char) : List Char :=
  dropTrail (l.dropWhile isPySpace)

/-- Python `s.split("\n")[0]`: the part before the first newline (the
whole string when it has none). -/
def splitHead (l : List Char) : List Char :=
  l.takeWhile (fun c => c != '\n')

/-- Source lines 45-51: the `amount` slot — search, then
`group(1).replace(",", "").strip()`; empty when no match. -/
def amountField (cs : List Char) : String :=
  match searchM amountAt cs with
  | some g => String.mk (pyStrip (g.filter (fun c => c != ',')))
  | none => ""

/-- Source lines 54-64: the `date` slot — numeric-date search first, the
textual-date search only when that found nothing, then
`group(1).strip()`; empty when neither matched. -/
def dateField (cs : List Char) : String :=
  match firstSome (searchM dateNumAt cs) (searchM dateTextAt cs) with
  | some g => String.mk (pyStrip g)
  | none => ""

/-- Source lines 72-78: the `buyer` slot — search, then
`group(1).strip().split("\n")[0]`; empty when no match. -/
def buyerField (cs : List Char) : String :=
  match searchM buyerAt cs with
  | some g => String.mk (splitHead (pyStrip g))
  | none => ""

/-- Source lines 81-85: the `seller` slot — search, then
`group(1).strip().split("\n")[0]`; empty when no match. -/
def sellerField (cs : List Char) : String :=
  match searchM sellerAt cs with
  | some g => String.mk (splitHead (pyStrip g))
  | none => ""

/-- The result shape of `extract_info_from_text`: four named string
fields. -/
structure ExtractedRecord where
  amount : String
  buyer : String
  seller : String
  date : String
deriving DecidableEq

/-- Source lines 36-87: `extract_info_from_text`. -/
def extract_info_from_text (text : String) : ExtractedRecord :=
  { amount := amountField text.toList
    buyer := buyerField text.toList
    seller := sellerField text.toList
    date := dateField text.toList }

/-- Python dict assignment `d[k] = v` on an insertion-ordered association
list: update in place when the key exists, append otherwise. -/
def dictSet (d : List (String × String)) (k v : String) : List (String × String) :=
  if d.any (fun p => p.1 = k) then d.map (fun p => if p.1 = k then (k, v) else p)
  else d ++ [(k, v)]

/-- Source lines 50-51: `if amount_match: extracted["amount"] = ...`. -/
def dictApplyAmount (cs : List Char) (d : List (String × String)) : List (String × String) :=
  match searchM amountAt cs with
  | some g => dictSet d "amount" (String.mk (pyStrip (g.filter (fun c => c != ','))))
  | none => d

/-- Source lines 63-64: `if date_match: extracted["date"] = ...`. -/
def dictApplyDate (cs : List Char) (d : List (String × String)) : List (String × String) :=
  match firstSome (searchM dateNumAt cs) (searchM dateTextAt cs) with
  | some g => dictSet d "date" (String.mk (pyStrip g))
  | none => d

/-- Source lines 75-78: `if buyer_match: extracted["buyer"] = ...`. -/
def dictApplyBuyer (cs : List Char) (d : List (String × String)) : List (String × String) :=
  match searchM buyerAt cs with
  | some g => dictSet d "buyer" (String.mk (splitHead (pyStrip g)))
  | none => d

/-- Source lines 84-85: `if seller_match: extracted["seller"] = ...`. -/
def dictApplySeller (cs : List Char) (d : List (String × String)) : List (String × String) :=
  match searchM sellerAt cs with
  | some g => dictSet d "seller" (String.mk (splitHead (pyStrip g)))
  | none => d

/-- Source lines 41-87 modelled at the dict level: start from
`{"amount": "", "buyer": "", "seller": "", "date": ""}` and perform the
four conditional assignments of the source in order. -/
def extractDict (text : String) : List (String × String) :=
  dictApplySeller text.toList
    (dictApplyBuyer text.toList
      (dictApplyDate text.toList
        (dictApplyAmount text.toList
          [("amount", ""), ("buyer", ""), ("seller", ""), ("date", "")])))

/-! ### Helper lemmas about the embedding -/

theorem firstSome_none (b : Option (List Char)) : firstSome none b = b := rfl

theorem firstSome_some (g : List Char) (b : Option (List Char)) :
    firstSome (some g) b = some g := rfl

theorem firstSome_cases {a b : Option (List Char)} {g : List Char}
    (h : firstSome a b = some g) : a = some g ∨ b = some g := by
  cases a with
  | none => exact Or.inr h
  | some g0 => exact Or.inl h

theorem tryLabel_some {lab : String} {tail : List Char → Option (List Char)}
    {cs g : List Char} (h : tryLabel lab tail cs = some g) :
    ∃ r, tail r = some g := by
  unfold tryLabel at h
  cases hs : stripPrefixCI lab.toList cs with
  | none => rw [hs] at h; exact absurd h (by simp)
  | some rest => rw [hs] at h; exact ⟨rest, h⟩

theorem head?_dropWhile_false {α : Type} (p : α → Bool) :
    ∀ (l : List α) (a : α), (l.dropWhile p).head? = some a → p a = false := by
  intro l
  induction l with
  | nil => intro a h; simp [List.dropWhile] at h
  | cons c t ih =>
    intro a h
    by_cases hc : p c
    · rw [List.dropWhile_cons_of_pos hc] at h
      exact ih a h
    · rw [List.dropWhile_cons_of_neg hc] at h
      simp at h
      rw [← h]
      exact Bool.eq_false_iff.mpr hc

/-- `dropTrail` only removes elements from the end. -/
theorem dropTrail_spec (l : List Char) : ∃ t, dropTrail l ++ t = l := by
  obtain ⟨t, ht⟩ := List.dropWhile_suffix (l := l.reverse) isPySpace
  refine ⟨t.reverse, ?_⟩
  rw [dropTrail, ← List.reverse_append, ht, List.reverse_reverse]

theorem pyStrip_head {l : List Char} {a : Char}
    (h : (pyStrip l).head? = some a) : isPySpace a = false := by
  obtain ⟨t, ht⟩ := dropTrail_spec (l.dropWhile isPySpace)
  apply head?_dropWhile_false isPySpace l a
  cases hp : pyStrip l with
  | nil => rw [hp] at h; exact absurd h (by simp)
  | cons x xs =>
    rw [hp] at h
    simp at h
    rw [pyStrip] at hp
    rw [← ht, hp, h]
    rfl

theorem pyStrip_getLast {l : List Char} {a : Char}
    (h : (pyStrip l).getLast? = some a) : isPySpace a = false := by
  apply head?_dropWhile_false isPySpace (l.dropWhile isPySpace).reverse a
  rw [pyStrip, dropTrail, List.getLast?_eq_head?_reverse, List.reverse_reverse] at h
  exact h

theorem mem_pyStrip {l : List Char} {a : Char} (h : a ∈ pyStrip l) : a ∈ l := by
  obtain ⟨t, ht⟩ := dropTrail_spec (l.dropWhile isPySpace)
  obtain ⟨s, hs⟩ := List.dropWhile_suffix (l := l) isPySpace
  rw [← hs, ← ht]
  rw [pyStrip] at h
  exact List.mem_append_right s (List.mem_append_left t h)

/-- The leftmost-match property of the search loop: a hit at index `i`
means the matcher succeeds on the suffix at `i` and fails at every
earlier start position. -/
theorem searchIdx_found (m : List Char → Option (List Char)) :
    ∀ (cs : List Char) (i : Nat) (g : List Char), searchIdx m cs = some (i, g) →
      m (cs.drop i) = some g ∧ ∀ j, j < i → m (cs.drop j) = none := by
  intro cs
  induction cs with
  | nil =>
    intro i g h
    rw [searchIdx] at h
    cases hm : m [] with
    | none => rw [hm] at h; exact absurd h (by simp)
    | some g0 =>
      rw [hm] at h
      have h2 : (0, g0) = (i, g) := Option.some.inj h
      injection h2 with hi hg
      subst hi; subst hg
      exact ⟨hm, fun j hj => absurd hj (by omega)⟩
  | cons c rest ih =>
    intro i g h
    rw [searchIdx] at h
    cases hm : m (c :: rest) with
    | some g0 =>
      rw [hm] at h
      have h2 : (0, g0) = (i, g) := Option.some.inj h
      injection h2 with hi hg
      subst hi; subst hg
      exact ⟨hm, fun j hj => absurd hj (by omega)⟩
    | none =>
      rw [hm] at h
      have h' : (searchIdx m rest).map (fun p => (p.1 + 1, p.2)) = some (i, g) := h
      rw [Option.map_eq_some'] at h'
      obtain ⟨⟨i0, g0⟩, hs, hig⟩ := h'
      have hig2 : (i0 + 1, g0) = (i, g) := hig
      injection hig2 with hi hg
      subst hi; subst hg
      obtain ⟨h1, h2⟩ := ih i0 g0 hs
      constructor
      · simpa using h1
      · intro j hj
        cases j with
        | zero => simpa using hm
        | succ j0 =>
          have hlt : j0 < i0 := by omega
          simpa using h2 j0 hlt

/-- A successful search returns a group produced by the matcher on some
suffix of the text. -/
theorem searchM_some {m : List Char → Option (List Char)} {cs g : List Char}
    (h : searchM m cs = some g) : ∃ s, m s = some g := by
  rw [searchM, Option.map_eq_some'] at h
  obtain ⟨⟨i, g0⟩, hs, hg⟩ := h
  have hg2 : g0 = g := hg
  obtain ⟨h1, _⟩ := searchIdx_found m cs i g0 hs
  exact ⟨cs.drop i, by rw [h1, hg2]⟩

theorem searchIdx_cons_some {m : List Char → Option (List Char)} {c : Char}
    {rest g : List Char} (h : m (c :: rest) = some g) :
    searchIdx m (c :: rest) = some (0, g) := by
  rw [searchIdx, h]

theorem searchM_cons_some {m : List Char → Option (List Char)} {c : Char}
    {rest g : List Char} (h : m (c :: rest) = some g) :
    searchM m (c :: rest) = some g := by
  rw [searchM, searchIdx_cons_some h, Option.map_some']

/-- Characters of the group captured by `amountNum` are digits, commas or
the decimal dot. -/
theorem amountNum_chars {cs g : List Char} (h : amountNum cs = some g) :
    ∀ a ∈ g, isPyDigit a = true ∨ a = ',' ∨ a = '.' := by
  unfold amountNum at h
  split at h
  · exact absurd h (by simp)
  · rename_i d ds htw
    split at h
    · rename_i rest hdw
      have hg : (d :: ds) ++ '.' :: rest.takeWhile isPyDigit = g := Option.some.inj h
      subst hg
      intro a ha
      rcases List.mem_append.mp ha with h1 | h2
      · have : a ∈ cs.takeWhile isDigitComma := by rw [htw]; exact h1
        have := List.mem_takeWhile_imp this
        rcases Bool.or_eq_true _ _ |>.mp this with hd | hc
        · exact Or.inl hd
        · exact Or.inr (Or.inl (by simpa using hc))
      · rcases List.mem_cons.mp h2 with h3 | h4
        · exact Or.inr (Or.inr h3)
        · exact Or.inl (List.mem_takeWhile_imp h4)
    · rename_i hdw
      have hg : d :: ds = g := Option.some.inj h
      subst hg
      intro a ha
      have : a ∈ cs.takeWhile isDigitComma := by rw [htw]; exact ha
      have := List.mem_takeWhile_imp this
      rcases Bool.or_eq_true _ _ |>.mp this with hd | hc
      · exact Or.inl hd
      · exact Or.inr (Or.inl (by simpa using hc))

/-- `amountTail` only returns groups produced by `amountNum`. -/
theorem amountTail_num {cs g : List Char} (h : amountTail cs = some g) :
    ∃ r, amountNum r = some g := by
  unfold amountTail at h
  split at h
  · exact absurd h (by simp)
  · rename_i c rest hdw
    by_cases hc : isCurrency c = true
    · rw [if_pos hc] at h; exact ⟨_, h⟩
    · rw [if_neg hc] at h; exact ⟨_, h⟩

/-- Characters of the group captured by the amount matcher are digits,
commas or the decimal dot. -/
theorem amountAt_chars {cs g : List Char} (h : amountAt cs = some g) :
    ∀ a ∈ g, isPyDigit a = true ∨ a = ',' ∨ a = '.' := by
  unfold amountAt at h
  rcases firstSome_cases h with h1 | h1
  · obtain ⟨r, hr⟩ := tryLabel_some h1
    obtain ⟨r2, hr2⟩ := amountTail_num hr
    exact amountNum_chars hr2
  rcases firstSome_cases h1 with h2 | h2
  · obtain ⟨r, hr⟩ := tryLabel_some h2
    obtain ⟨r2, hr2⟩ := amountTail_num hr
    exact amountNum_chars hr2
  rcases firstSome_cases h2 with h3 | h3
  · obtain ⟨r, hr⟩ := tryLabel_some h3
    obtain ⟨r2, hr2⟩ := amountTail_num hr
    exact amountNum_chars hr2
  · obtain ⟨r, hr⟩ := tryLabel_some h3
    obtain ⟨r2, hr2⟩ := amountTail_num hr
    exact amountNum_chars hr2

/-- The group captured by `lineTail` never contains a newline: it stops
at the first one. -/
theorem lineTail_noNewline {cs g : List Char} (h : lineTail cs = some g) :
    ∀ a ∈ g, a ≠ '\n' := by
  have hg : (cs.dropWhile isColonSpace).takeWhile (fun c => c != '\n') = g :=
    Option.some.inj h
  subst hg
  intro a ha
  have := List.mem_takeWhile_imp ha
  simpa using this

/-- The group captured by the buyer matcher never contains a newline. -/
theorem buyerAt_noNewline {cs g : List Char} (h : buyerAt cs = some g) :
    ∀ a ∈ g, a ≠ '\n' := by
  unfold buyerAt at h
  obtain ⟨r, hr⟩ := tryLabel_some h
  exact lineTail_noNewline hr

/-- The group captured by the seller matcher never contains a newline. -/
theorem sellerAt_noNewline {cs g : List Char} (h : sellerAt cs = some g) :
    ∀ a ∈ g, a ≠ '\n' := by
  unfold sellerAt at h
  rcases firstSome_cases h with h1 | h1
  · obtain ⟨r, hr⟩ := tryLabel_some h1
    exact lineTail_noNewline hr
  rcases firstSome_cases h1 with h2 | h2
  · obtain ⟨r, hr⟩ := tryLabel_some h2
    exact lineTail_noNewline hr
  · obtain ⟨r, hr⟩ := tryLabel_some h2
    exact lineTail_noNewline hr

theorem dictSet_amount (a b s d v : String) :
    dictSet [("amount", a), ("buyer", b), ("seller", s), ("date", d)] "amount" v =
      [("amount", v), ("buyer", b), ("seller", s), ("date", d)] := by
  simp [dictSet]

theorem dictSet_buyer (a b s d v : String) :
    dictSet [("amount", a), ("buyer", b), ("seller", s), ("date", d)] "buyer" v =
      [("amount", a), ("buyer", v), ("seller", s), ("date", d)] := by
  simp [dictSet]

theorem dictSet_seller (a b s d v : String) :
    dictSet [("amount", a), ("buyer", b), ("seller", s), ("date", d)] "seller" v =
      [("amount", a), ("buyer", b), ("seller", v), ("date", d)] := by
  simp [dictSet]

theorem dictSet_date (a b s d v : String) :
    dictSet [("amount", a), ("buyer", b), ("seller", s), ("date", d)] "date" v =
      [("amount", a), ("buyer", b), ("seller", s), ("date", v)] := by
  simp [dictSet]

/-- The dict-level model agrees with the record-level model: the four
keys are always exactly `amount`, `buyer`, `seller`, `date` in insertion
order, bound to the four field values. -/
theorem extractDict_eq (t : String) :
    extractDict t = [("amount", amountField t.toList), ("buyer", buyerField t.toList),
      ("seller", sellerField t.toList), ("date", dateField t.toList)] := by
  unfold extractDict dictApplyAmount dictApplyDate dictApplyBuyer dictApplySeller
  unfold amountField dateField buyerField sellerField
  cases searchM amountAt t.toList <;>
    cases firstSome (searchM dateNumAt t.toList) (searchM dateTextAt t.toList) <;>
      cases searchM buyerAt t.toList <;>
        cases searchM sellerAt t.toList <;>
          simp [dictSet_amount, dictSet_buyer, dictSet_seller, dictSet_date]

/-! ### Claim theorems -/

/-- C1: for every input string `extract_info_from_text` returns normally
with a complete record (the embedding is a total function, mirroring that
the Python code on lines 36-87 has no raising operation), and a field for
which no pattern matches is the empty string, not an error value. -/
theorem C1_total_and_empty_on_no_match (t : String) :
    (∃ a b s d : String, extractDict t =
      [("amount", a), ("buyer", b), ("seller", s), ("date", d)]) ∧
    (searchM amountAt t.toList = none → (extract_info_from_text t).amount = "") ∧
    (searchM dateNumAt t.toList = none → searchM dateTextAt t.toList = none →
      (extract_info_from_text t).date = "") ∧
    (searchM buyerAt t.toList = none → (extract_info_from_text t).buyer = "") ∧
    (searchM sellerAt t.toList = none → (extract_info_from_text t).seller = "") := by
  refine ⟨⟨_, _, _, _, extractDict_eq t⟩, ?_, ?_, ?_, ?_⟩
  · intro h
    show amountField t.toList = ""
    unfold amountField
    rw [h]
  · intro h1 h2
    show dateField t.toList = ""
    unfold dateField
    rw [h1, h2]
    rfl
  · intro h
    show buyerField t.toList = ""
    unfold buyerField
    rw [h]
  · intro h
    show sellerField t.toList = ""
    unfold sellerField
    rw [h]

theorem C1_total_and_empty_on_no_match_witness :
    (extract_info_from_text "").amount = "" ∧ (extract_info_from_text "").date = "" ∧
    (extract_info_from_text "").buyer = "" ∧ (extract_info_from_text "").seller = "" :=
  ⟨(C1_total_and_empty_on_no_match "").2.1 (by decide),
   (C1_total_and_empty_on_no_match "").2.2.1 (by decide) (by decide),
   (C1_total_and_empty_on_no_match "").2.2.2.1 (by decide),
   (C1_total_and_empty_on_no_match "").2.2.2.2 (by decide)⟩

/-- C2: for every input string the returned dict has exactly the four
keys `amount`, `buyer`, `seller`, `date` in this order — never fewer,
never more — and each value is a string (possibly empty), never `None`
(the value type of the embedding is `String`, not `Option String`). -/
theorem C2_exactly_four_string_fields (t : String) :
    (extractDict t).map Prod.fst = ["amount", "buyer", "seller", "date"] ∧
    ∃ a b s d : String, extractDict t =
      [("amount", a), ("buyer", b), ("seller", s), ("date", d)] := by
  rw [extractDict_eq]
  exact ⟨rfl, _, _, _, _, rfl⟩

/-- C3: on the empty input string every one of the four fields is the
empty string. -/
theorem C3_empty_input_all_fields_empty :
    extract_info_from_text "" = { amount := "", buyer := "", seller := "", date := "" } := by
  decide

/-- C8: the extractor is deterministic — two calls on identical input
yield identical records.  The embedding is a pure function of the text
alone, mirroring that the Python function reads no shared state and does
no I/O. -/
theorem C8_deterministic (t1 t2 : String) (h : t1 = t2) :
    extract_info_from_text t1 = extract_info_from_text t2 := by
  rw [h]

theorem C8_deterministic_witness :
    extract_info_from_text "Total: $1,234.56" = extract_info_from_text "Total: $1,234.56" :=
  C8_deterministic _ _ rfl

/-- C9: every field's matcher returns the match at the first label
occurrence scanning left to right: a search hit at index `i` means the
matcher succeeds at `i` and fails at every earlier start position. -/
theorem C9_first_match_wins (cs : List Char) (i : Nat) (g : List Char) :
    (searchIdx amountAt cs = some (i, g) →
      amountAt (cs.drop i) = some g ∧ ∀ j, j < i → amountAt (cs.drop j) = none) ∧
    (searchIdx buyerAt cs = some (i, g) →
      buyerAt (cs.drop i) = some g ∧ ∀ j, j < i → buyerAt (cs.drop j) = none) ∧
    (searchIdx sellerAt cs = some (i, g) →
      sellerAt (cs.drop i) = some g ∧ ∀ j, j < i → sellerAt (cs.drop j) = none) ∧
    (searchIdx dateNumAt cs = some (i, g) →
      dateNumAt (cs.drop i) = some g ∧ ∀ j, j < i → dateNumAt (cs.drop j) = none) ∧
    (searchIdx dateTextAt cs = some (i, g) →
      dateTextAt (cs.drop i) = some g ∧ ∀ j, j < i → dateTextAt (cs.drop j) = none) :=
  ⟨searchIdx_found amountAt cs i g, searchIdx_found buyerAt cs i g,
   searchIdx_found sellerAt cs i g, searchIdx_found dateNumAt cs i g,
   searchIdx_found dateTextAt cs i g⟩

theorem C9_first_match_wins_witness :
    amountAt (List.drop 2 "xxTotal: 5".toList) = some ['5'] ∧
    ∀ j, j < 2 → amountAt (List.drop j "xxTotal: 5".toList) = none :=
  (C9_first_match_wins "xxTotal: 5".toList 2 ['5']).1 (by decide)

/-- C4 counterexample: `"Total: $1,234.567"` contains the substring
`"Total: $1,234.56"`, yet the amount field is `"1234.567"`, not
`"1234.56"` — the greedy trailing `\d*` of the pattern also consumes the
digit that follows the substring. -/
theorem C4_counterexample :
    "Total: $1,234.56" ++ "7" = "Total: $1,234.567" ∧
    (extract_info_from_text "Total: $1,234.567").amount = "1234.567" ∧
    (extract_info_from_text "Total: $1,234.567").amount ≠ "1234.56" := by
  refine ⟨by decide, by decide, by decide⟩

/-- C5 counterexample: a text containing both `"Date: 5/1/2024"` and
`"Invoice Date: May 1, 2024"` but with an earlier numeric date yields
that earlier date, not `"5/1/2024"` — leftmost match wins within the
numeric pattern. -/
theorem C5_counterexample :
    "Date: 1/1/11 " ++ "Date: 5/1/2024" ++ " " ++ "Invoice Date: May 1, 2024" =
      "Date: 1/1/11 Date: 5/1/2024 Invoice Date: May 1, 2024" ∧
    (extract_info_from_text
      "Date: 1/1/11 Date: 5/1/2024 Invoice Date: May 1, 2024").date = "1/1/11" ∧
    (extract_info_from_text
      "Date: 1/1/11 Date: 5/1/2024 Invoice Date: May 1, 2024").date ≠ "5/1/2024" := by
  refine ⟨by decide, by decide, by decide⟩

/-- C6 counterexample: a text containing `"Bill To: Acme Corp\n123 Main St"`
after an earlier `"Bill To"` label yields the earlier capture `"X"`, not
`"Acme Corp"`. -/
theorem C6_counterexample :
    "Bill To: X\n" ++ "Bill To: Acme Corp\n123 Main St" =
      "Bill To: X\nBill To: Acme Corp\n123 Main St" ∧
    (extract_info_from_text "Bill To: X\nBill To: Acme Corp\n123 Main St").buyer = "X" ∧
    (extract_info_from_text "Bill To: X\nBill To: Acme Corp\n123 Main St").buyer ≠
      "Acme Corp" := by
  refine ⟨by decide, by decide, by decide⟩

/-- C7 counterexample: with `"Vendor:"` followed by no content on its own
line but content on the next line, the seller field is that later
content, not the empty string — the `[:\s]*` run after the label also
consumes the newline, since `\s` matches newlines. -/
theorem C7_counterexample :
    (extract_info_from_text "Vendor:\nAcme").seller = "Acme" ∧
    (extract_info_from_text "Vendor:\nAcme").seller ≠ "" := by
  refine ⟨by decide, by decide⟩

/-- C10 counterexample: the textual date pattern's `\s+` pieces match
newlines, so a date value can contain an interior newline, which
`strip()` does not remove. -/
theorem C10_counterexample :
    (extract_info_from_text "Invoice Date: May\n1, 2024").date = "May\n1, 2024" ∧
    '\n' ∈ (extract_info_from_text "Invoice Date: May\n1, 2024").date.toList := by
  refine ⟨by decide, by decide⟩

/-- C4 amended: for every input text that begins with
`"Total: $1,234.56"` and whose remainder does not begin with a Unicode
decimal digit (so that this occurrence is the leftmost amount match and
the greedy `\d*` does not extend the group), the amount field equals
`"1234.56"`. -/
theorem C4_amended (v : String)
    (hv : ∀ c, v.toList.head? = some c → isPyDigit c = false) :
    (extract_info_from_text ("Total: $1,234.56" ++ v)).amount = "1234.56" := by
  have hv2 : v.toList.takeWhile isPyDigit = [] := by
    cases hl : v.toList with
    | nil => rfl
    | cons c cs =>
      have hc : isPyDigit c = false := hv c (by rw [hl]; rfl)
      simp [List.takeWhile_cons, hc]
  have hlist : ("Total: $1,234.56" ++ v).toList =
      'T' :: 'o' :: 't' :: 'a' :: 'l' :: ':' :: ' ' :: '$' :: '1' :: ',' :: '2' :: '3' ::
        '4' :: '.' :: '5' :: '6' :: v.toList := rfl
  have hm : amountAt ('T' :: 'o' :: 't' :: 'a' :: 'l' :: ':' :: ' ' :: '$' :: '1' :: ',' ::
      '2' :: '3' :: '4' :: '.' :: '5' :: '6' :: v.toList) =
      some ('1' :: ',' :: '2' :: '3' :: '4' :: '.' :: '5' :: '6' ::
        v.toList.takeWhile isPyDigit) := rfl
  rw [hv2] at hm
  have hs : searchM amountAt (("Total: $1,234.56" ++ v).toList) =
      some ['1', ',', '2', '3', '4', '.', '5', '6'] := by
    rw [hlist]
    exact searchM_cons_some hm
  show amountField (("Total: $1,234.56" ++ v).toList) = "1234.56"
  unfold amountField
  rw [hs]
  rfl

theorem C4_amended_witness :
    (extract_info_from_text ("Total: $1,234.56" ++ "x")).amount = "1234.56" :=
  C4_amended "x" (by
    intro c hc
    have h2 : 'x' = c := Option.some.inj hc
    rw [← h2]
    decide)

/-- C5 amended: the numeric-date pattern takes precedence over the
textual one: on the two-line texts combining `"Date: 5/1/2024"` and
`"Invoice Date: May 1, 2024"` in either order the date field equals
`"5/1/2024"`, and for every text on which the numeric pattern finds no
match anywhere, the date field is exactly what the textual pattern
yields. -/
theorem C5_amended :
    (extract_info_from_text "Date: 5/1/2024\nInvoice Date: May 1, 2024").date =
      "5/1/2024" ∧
    (extract_info_from_text "Invoice Date: May 1, 2024\nDate: 5/1/2024").date =
      "5/1/2024" ∧
    ∀ t : String, searchM dateNumAt t.toList = none →
      (extract_info_from_text t).date =
        (match searchM dateTextAt t.toList with
          | some g => String.mk (pyStrip g)
          | none => "") := by
  refine ⟨by decide, by decide, ?_⟩
  intro t h
  show dateField t.toList = _
  unfold dateField
  rw [h, firstSome_none]

theorem C5_amended_witness :
    (extract_info_from_text "Invoice Date: January 5, 2024").date =
      (match searchM dateTextAt "Invoice Date: January 5, 2024".toList with
        | some g => String.mk (pyStrip g)
        | none => "") :=
  C5_amended.2.2 "Invoice Date: January 5, 2024" (by decide)

/-- C6 amended: for every input text that begins with
`"Bill To: Acme Corp\n123 Main St"` (so that this `Bill To` is the
leftmost one) the buyer field equals `"Acme Corp"` — only the first line
of the captured span is kept, whatever follows. -/
theorem C6_amended (v : String) :
    (extract_info_from_text ("Bill To: Acme Corp\n123 Main St" ++ v)).buyer =
      "Acme Corp" := by
  have hlist : ("Bill To: Acme Corp\n123 Main St" ++ v).toList =
      'B' :: 'i' :: 'l' :: 'l' :: ' ' :: 'T' :: 'o' :: ':' :: ' ' :: 'A' :: 'c' :: 'm' ::
        'e' :: ' ' :: 'C' :: 'o' :: 'r' :: 'p' :: '\n' :: '1' :: '2' :: '3' :: ' ' ::
        'M' :: 'a' :: 'i' :: 'n' :: ' ' :: 'S' :: 't' :: v.toList := rfl
  have hm : buyerAt ('B' :: 'i' :: 'l' :: 'l' :: ' ' :: 'T' :: 'o' :: ':' :: ' ' :: 'A' ::
      'c' :: 'm' :: 'e' :: ' ' :: 'C' :: 'o' :: 'r' :: 'p' :: '\n' :: '1' :: '2' :: '3' ::
      ' ' :: 'M' :: 'a' :: 'i' :: 'n' :: ' ' :: 'S' :: 't' :: v.toList) =
      some ['A', 'c', 'm', 'e', ' ', 'C', 'o', 'r', 'p'] := rfl
  have hs : searchM buyerAt (("Bill To: Acme Corp\n123 Main St" ++ v).toList) =
      some ['A', 'c', 'm', 'e', ' ', 'C', 'o', 'r', 'p'] := by
    rw [hlist]
    exact searchM_cons_some hm
  show buyerField (("Bill To: Acme Corp\n123 Main St" ++ v).toList) = "Acme Corp"
  unfold buyerField
  rw [hs]
  rfl

theorem C6_amended_witness :
    (extract_info_from_text ("Bill To: Acme Corp\n123 Main St" ++ "!")).buyer =
      "Acme Corp" :=
  C6_amended "!"

/-- If the matcher fails on every suffix, the search finds nothing. -/
theorem searchIdx_none_of_all (m : List Char → Option (List Char)) :
    ∀ cs : List Char, (∀ n, m (cs.drop n) = none) → searchIdx m cs = none := by
  intro cs
  induction cs with
  | nil =>
    intro h
    rw [searchIdx]
    rw [show m [] = none from h 0]
    rfl
  | cons c rest ih =>
    intro h
    rw [searchIdx]
    rw [show m (c :: rest) = none from h 0]
    rw [ih (fun n => by simpa using h (n + 1))]
    rfl

theorem searchM_none_of_all (m : List Char → Option (List Char)) (cs : List Char)
    (h : ∀ n, m (cs.drop n) = none) : searchM m cs = none := by
  rw [searchM, searchIdx_none_of_all m cs h]
  rfl

/-- No colon/whitespace character is an ASCII capital, so lowercasing
fixes it. -/
theorem toLower_eq_self_of_colonSpace (c : Char) (hc : isColonSpace c = true) :
    c.toLower = c := by
  have h30 : c = ':' ∨ c = ' ' ∨ c = '\t' ∨ c = '\n' ∨ c = '\r' ∨ c = '\x0b' ∨
      c = '\x0c' ∨ c = '\x1c' ∨ c = '\x1d' ∨ c = '\x1e' ∨ c = '\x1f' ∨ c = '\x85' ∨
      c = '\xa0' ∨ c = ' ' ∨ c = ' ' ∨ c = ' ' ∨ c = ' ' ∨
      c = ' ' ∨ c = ' ' ∨ c = ' ' ∨ c = ' ' ∨ c = ' ' ∨
      c = ' ' ∨ c = ' ' ∨ c = ' ' ∨ c = ' ' ∨ c = ' ' ∨
      c = ' ' ∨ c = ' ' ∨ c = '　' := by
    simpa [isColonSpace, isPySpace, Bool.or_eq_true, beq_iff_eq, or_assoc] using hc
  rcases h30 with rfl | rfl | rfl | rfl | rfl | rfl | rfl | rfl | rfl | rfl | rfl | rfl |
    rfl | rfl | rfl | rfl | rfl | rfl | rfl | rfl | rfl | rfl | rfl | rfl | rfl | rfl |
    rfl | rfl | rfl | rfl
  all_goals decide

/-- A label whose (lowercased) head is not colon/whitespace cannot match
at a colon/whitespace character. -/
theorem stripPrefixCI_none_colonSpace {l : Char} {ls : List Char} {c : Char}
    {rest : List Char} (hc : isColonSpace c = true)
    (hl : isColonSpace l.toLower = false) :
    stripPrefixCI (l :: ls) (c :: rest) = none := by
  have hne : ¬ c.toLower = l.toLower := by
    intro heq
    have hceq : c = l.toLower := by
      rw [← toLower_eq_self_of_colonSpace c hc]
      exact heq
    rw [hceq] at hc
    rw [hc] at hl
    exact Bool.noConfusion hl
  unfold stripPrefixCI
  rw [if_neg hne]

/-- The amount matcher fails on text made of colons and whitespace: no
label can start there. -/
theorem amountAt_none_colonSpace (cs : List Char)
    (h : ∀ x ∈ cs, isColonSpace x = true) : amountAt cs = none := by
  cases cs with
  | nil => rfl
  | cons c rest =>
    have hc : isColonSpace c = true := h c (List.mem_cons_self c rest)
    have e1 : stripPrefixCI "Total".toList (c :: rest) = none := by
      rw [show ("Total".toList : List Char) = 'T' :: ['o', 't', 'a', 'l'] from rfl]
      exact stripPrefixCI_none_colonSpace hc (by decide)
    have e2 : stripPrefixCI "Amount".toList (c :: rest) = none := by
      rw [show ("Amount".toList : List Char) = 'A' :: ['m', 'o', 'u', 'n', 't'] from rfl]
      exact stripPrefixCI_none_colonSpace hc (by decide)
    have e3 : stripPrefixCI "Balance due".toList (c :: rest) = none := by
      rw [show ("Balance due".toList : List Char) =
        'B' :: ['a', 'l', 'a', 'n', 'c', 'e', ' ', 'd', 'u', 'e'] from rfl]
      exact stripPrefixCI_none_colonSpace hc (by decide)
    have e4 : stripPrefixCI "Invoice Total".toList (c :: rest) = none := by
      rw [show ("Invoice Total".toList : List Char) =
        'I' :: ['n', 'v', 'o', 'i', 'c', 'e', ' ', 'T', 'o', 't', 'a', 'l'] from rfl]
      exact stripPrefixCI_none_colonSpace hc (by decide)
    unfold amountAt tryLabel
    rw [e1, e2, e3, e4]
    rfl

/-- The numeric-date matcher fails on colon/whitespace text. -/
theorem dateNumAt_none_colonSpace (cs : List Char)
    (h : ∀ x ∈ cs, isColonSpace x = true) : dateNumAt cs = none := by
  cases cs with
  | nil => rfl
  | cons c rest =>
    have hc : isColonSpace c = true := h c (List.mem_cons_self c rest)
    have e1 : stripPrefixCI "Date".toList (c :: rest) = none := by
      rw [show ("Date".toList : List Char) = 'D' :: ['a', 't', 'e'] from rfl]
      exact stripPrefixCI_none_colonSpace hc (by decide)
    unfold dateNumAt tryLabel
    rw [e1]

/-- The textual-date matcher fails on colon/whitespace text. -/
theorem dateTextAt_none_colonSpace (cs : List Char)
    (h : ∀ x ∈ cs, isColonSpace x = true) : dateTextAt cs = none := by
  cases cs with
  | nil => rfl
  | cons c rest =>
    have hc : isColonSpace c = true := h c (List.mem_cons_self c rest)
    have e1 : stripPrefixCI "Invoice Date".toList (c :: rest) = none := by
      rw [show ("Invoice Date".toList : List Char) =
        'I' :: ['n', 'v', 'o', 'i', 'c', 'e', ' ', 'D', 'a', 't', 'e'] from rfl]
      exact stripPrefixCI_none_colonSpace hc (by decide)
    have e2 : stripPrefixCI "Bill Date".toList (c :: rest) = none := by
      rw [show ("Bill Date".toList : List Char) =
        'B' :: ['i', 'l', 'l', ' ', 'D', 'a', 't', 'e'] from rfl]
      exact stripPrefixCI_none_colonSpace hc (by decide)
    unfold dateTextAt tryLabel
    rw [e1, e2]
    rfl

/-- When everything after a label is colons/whitespace, the amount tail
has no digit to match. -/
theorem amountTail_none_nil {w : List Char} (hd : w.dropWhile isColonSpace = []) :
    amountTail w = none := by
  unfold amountTail
  rw [hd]

/-- Likewise the numeric-date tail. -/
theorem dateNumTail_none_nil {w : List Char} (hd : w.dropWhile isColonSpace = []) :
    dateNumTail w = none := by
  unfold dateNumTail
  rw [hd]
  rfl

/-- Likewise the textual-date tail. -/
theorem dateTextTail_none_nil {w : List Char} (hd : w.dropWhile isColonSpace = []) :
    dateTextTail w = none := by
  unfold dateTextTail
  rw [hd]
  rfl

/-- The line tail captures the empty group on colon/whitespace text. -/
theorem lineTail_empty_nil {w : List Char} (hd : w.dropWhile isColonSpace = []) :
    lineTail w = some [] := by
  unfold lineTail
  rw [hd]
  rfl

theorem amountField_of_none {cs : List Char} (h : searchM amountAt cs = none) :
    amountField cs = "" := by
  unfold amountField
  rw [h]

theorem dateField_of_none {cs : List Char} (h1 : searchM dateNumAt cs = none)
    (h2 : searchM dateTextAt cs = none) : dateField cs = "" := by
  unfold dateField
  rw [h1, h2]
  rfl

theorem buyerField_of_empty {cs : List Char} (h : searchM buyerAt cs = some []) :
    buyerField cs = "" := by
  unfold buyerField
  rw [h]
  rfl

theorem sellerField_of_empty {cs : List Char} (h : searchM sellerAt cs = some []) :
    sellerField cs = "" := by
  unfold sellerField
  rw [h]
  rfl

/-- An exact `Total` label occurrence followed by colon/whitespace-only
text yields no amount match at that position. -/
theorem amountAt_total_nil {w : List Char} (hd : w.dropWhile isColonSpace = []) :
    amountAt ('T' :: 'o' :: 't' :: 'a' :: 'l' :: w) = none := by
  rw [show amountAt ('T' :: 'o' :: 't' :: 'a' :: 'l' :: w) =
    firstSome (amountTail w) none from rfl, amountTail_none_nil hd]
  rfl

/-- A lone `t` before colon/whitespace-only text matches no amount
label (the `Total` attempt dies either at the end of input or at the
first colon/whitespace character). -/
theorem amountAt_t_nil {w : List Char} (hw : ∀ x ∈ w, isColonSpace x = true) :
    amountAt ('t' :: w) = none := by
  cases hlw : w with
  | nil => rfl
  | cons c rest =>
    have hc : isColonSpace c = true := hw c (by rw [hlw]; exact List.mem_cons_self c rest)
    have e1 : stripPrefixCI "Total".toList ('t' :: c :: rest) = none := by
      rw [show stripPrefixCI "Total".toList ('t' :: c :: rest) =
        stripPrefixCI ('o' :: ['t', 'a', 'l']) (c :: rest) from rfl]
      exact stripPrefixCI_none_colonSpace hc (by decide)
    unfold amountAt tryLabel
    rw [e1]
    rfl

/-- An exact `Date` label occurrence followed by colon/whitespace-only
text yields no numeric-date match at that position. -/
theorem dateNumAt_date_nil {w : List Char} (hd : w.dropWhile isColonSpace = []) :
    dateNumAt ('D' :: 'a' :: 't' :: 'e' :: w) = none := by
  rw [show dateNumAt ('D' :: 'a' :: 't' :: 'e' :: w) = dateNumTail w from rfl,
    dateNumTail_none_nil hd]

theorem amountSearch_total (w : String) (hw : ∀ c ∈ w.toList, isColonSpace c = true) :
    searchM amountAt (("Total" ++ w).toList) = none := by
  have hd : w.toList.dropWhile isColonSpace = [] := List.dropWhile_eq_nil_iff.mpr hw
  have hall : ∀ n, amountAt (List.drop n
      ('T' :: 'o' :: 't' :: 'a' :: 'l' :: w.toList)) = none := fun n =>
    match n with
    | 0 => amountAt_total_nil hd
    | 1 => rfl
    | 2 => rfl
    | 3 => rfl
    | 4 => rfl
    | (k + 5) => amountAt_none_colonSpace (List.drop k w.toList)
        (fun x hx => hw x (List.mem_of_mem_drop hx))
  rw [show ("Total" ++ w).toList = 'T' :: 'o' :: 't' :: 'a' :: 'l' :: w.toList from rfl]
  exact searchM_none_of_all _ _ hall

theorem amountSearch_amount (w : String) (hw : ∀ c ∈ w.toList, isColonSpace c = true) :
    searchM amountAt (("Amount" ++ w).toList) = none := by
  have hd : w.toList.dropWhile isColonSpace = [] := List.dropWhile_eq_nil_iff.mpr hw
  have h0 : amountAt ('A' :: 'm' :: 'o' :: 'u' :: 'n' :: 't' :: w.toList) = none := by
    rw [show amountAt ('A' :: 'm' :: 'o' :: 'u' :: 'n' :: 't' :: w.toList) =
      firstSome (amountTail w.toList) none from rfl, amountTail_none_nil hd]
    rfl
  have hall : ∀ n, amountAt (List.drop n
      ('A' :: 'm' :: 'o' :: 'u' :: 'n' :: 't' :: w.toList)) = none := fun n =>
    match n with
    | 0 => h0
    | 1 => rfl
    | 2 => rfl
    | 3 => rfl
    | 4 => rfl
    | 5 => amountAt_t_nil hw
    | (k + 6) => amountAt_none_colonSpace (List.drop k w.toList)
        (fun x hx => hw x (List.mem_of_mem_drop hx))
  rw [show ("Amount" ++ w).toList =
    'A' :: 'm' :: 'o' :: 'u' :: 'n' :: 't' :: w.toList from rfl]
  exact searchM_none_of_all _ _ hall

theorem amountSearch_balance (w : String) (hw : ∀ c ∈ w.toList, isColonSpace c = true) :
    searchM amountAt (("Balance due" ++ w).toList) = none := by
  have hd : w.toList.dropWhile isColonSpace = [] := List.dropWhile_eq_nil_iff.mpr hw
  have h0 : amountAt ('B' :: 'a' :: 'l' :: 'a' :: 'n' :: 'c' :: 'e' :: ' ' :: 'd' ::
      'u' :: 'e' :: w.toList) = none := by
    rw [show amountAt ('B' :: 'a' :: 'l' :: 'a' :: 'n' :: 'c' :: 'e' :: ' ' :: 'd' ::
      'u' :: 'e' :: w.toList) = firstSome (amountTail w.toList) none from rfl,
      amountTail_none_nil hd]
    rfl
  have hall : ∀ n, amountAt (List.drop n ('B' :: 'a' :: 'l' :: 'a' :: 'n' :: 'c' ::
      'e' :: ' ' :: 'd' :: 'u' :: 'e' :: w.toList)) = none := fun n =>
    match n with
    | 0 => h0
    | 1 => rfl
    | 2 => rfl
    | 3 => rfl
    | 4 => rfl
    | 5 => rfl
    | 6 => rfl
    | 7 => rfl
    | 8 => rfl
    | 9 => rfl
    | 10 => rfl
    | (k + 11) => amountAt_none_colonSpace (List.drop k w.toList)
        (fun x hx => hw x (List.mem_of_mem_drop hx))
  rw [show ("Balance due" ++ w).toList = 'B' :: 'a' :: 'l' :: 'a' :: 'n' :: 'c' ::
    'e' :: ' ' :: 'd' :: 'u' :: 'e' :: w.toList from rfl]
  exact searchM_none_of_all _ _ hall

theorem amountSearch_invoicetotal (w : String)
    (hw : ∀ c ∈ w.toList, isColonSpace c = true) :
    searchM amountAt (("Invoice Total" ++ w).toList) = none := by
  have hd : w.toList.dropWhile isColonSpace = [] := List.dropWhile_eq_nil_iff.mpr hw
  have h0 : amountAt ('I' :: 'n' :: 'v' :: 'o' :: 'i' :: 'c' :: 'e' :: ' ' :: 'T' ::
      'o' :: 't' :: 'a' :: 'l' :: w.toList) = none := by
    rw [show amountAt ('I' :: 'n' :: 'v' :: 'o' :: 'i' :: 'c' :: 'e' :: ' ' :: 'T' ::
      'o' :: 't' :: 'a' :: 'l' :: w.toList) = amountTail w.toList from rfl,
      amountTail_none_nil hd]
  have hall : ∀ n, amountAt (List.drop n ('I' :: 'n' :: 'v' :: 'o' :: 'i' :: 'c' ::
      'e' :: ' ' :: 'T' :: 'o' :: 't' :: 'a' :: 'l' :: w.toList)) = none := fun n =>
    match n with
    | 0 => h0
    | 1 => rfl
    | 2 => rfl
    | 3 => rfl
    | 4 => rfl
    | 5 => rfl
    | 6 => rfl
    | 7 => rfl
    | 8 => amountAt_total_nil hd
    | 9 => rfl
    | 10 => rfl
    | 11 => rfl
    | 12 => rfl
    | (k + 13) => amountAt_none_colonSpace (List.drop k w.toList)
        (fun x hx => hw x (List.mem_of_mem_drop hx))
  rw [show ("Invoice Total" ++ w).toList = 'I' :: 'n' :: 'v' :: 'o' :: 'i' :: 'c' ::
    'e' :: ' ' :: 'T' :: 'o' :: 't' :: 'a' :: 'l' :: w.toList from rfl]
  exact searchM_none_of_all _ _ hall

theorem dateNumSearch_date (w : String) (hw : ∀ c ∈ w.toList, isColonSpace c = true) :
    searchM dateNumAt (("Date" ++ w).toList) = none := by
  have hd : w.toList.dropWhile isColonSpace = [] := List.dropWhile_eq_nil_iff.mpr hw
  have hall : ∀ n, dateNumAt (List.drop n
      ('D' :: 'a' :: 't' :: 'e' :: w.toList)) = none := fun n =>
    match n with
    | 0 => dateNumAt_date_nil hd
    | 1 => rfl
    | 2 => rfl
    | 3 => rfl
    | (k + 4) => dateNumAt_none_colonSpace (List.drop k w.toList)
        (fun x hx => hw x (List.mem_of_mem_drop hx))
  rw [show ("Date" ++ w).toList = 'D' :: 'a' :: 't' :: 'e' :: w.toList from rfl]
  exact searchM_none_of_all _ _ hall

theorem dateTextSearch_date (w : String) (hw : ∀ c ∈ w.toList, isColonSpace c = true) :
    searchM dateTextAt (("Date" ++ w).toList) = none := by
  have hall : ∀ n, dateTextAt (List.drop n
      ('D' :: 'a' :: 't' :: 'e' :: w.toList)) = none := fun n =>
    match n with
    | 0 => rfl
    | 1 => rfl
    | 2 => rfl
    | 3 => rfl
    | (k + 4) => dateTextAt_none_colonSpace (List.drop k w.toList)
        (fun x hx => hw x (List.mem_of_mem_drop hx))
  rw [show ("Date" ++ w).toList = 'D' :: 'a' :: 't' :: 'e' :: w.toList from rfl]
  exact searchM_none_of_all _ _ hall

theorem dateNumSearch_invoicedate (w : String)
    (hw : ∀ c ∈ w.toList, isColonSpace c = true) :
    searchM dateNumAt (("Invoice Date" ++ w).toList) = none := by
  have hd : w.toList.dropWhile isColonSpace = [] := List.dropWhile_eq_nil_iff.mpr hw
  have hall : ∀ n, dateNumAt (List.drop n ('I' :: 'n' :: 'v' :: 'o' :: 'i' :: 'c' ::
      'e' :: ' ' :: 'D' :: 'a' :: 't' :: 'e' :: w.toList)) = none := fun n =>
    match n with
    | 0 => rfl
    | 1 => rfl
    | 2 => rfl
    | 3 => rfl
    | 4 => rfl
    | 5 => rfl
    | 6 => rfl
    | 7 => rfl
    | 8 => dateNumAt_date_nil hd
    | 9 => rfl
    | 10 => rfl
    | 11 => rfl
    | (k + 12) => dateNumAt_none_colonSpace (List.drop k w.toList)
        (fun x hx => hw x (List.mem_of_mem_drop hx))
  rw [show ("Invoice Date" ++ w).toList = 'I' :: 'n' :: 'v' :: 'o' :: 'i' :: 'c' ::
    'e' :: ' ' :: 'D' :: 'a' :: 't' :: 'e' :: w.toList from rfl]
  exact searchM_none_of_all _ _ hall

theorem dateTextSearch_invoicedate (w : String)
    (hw : ∀ c ∈ w.toList, isColonSpace c = true) :
    searchM dateTextAt (("Invoice Date" ++ w).toList) = none := by
  have hd : w.toList.dropWhile isColonSpace = [] := List.dropWhile_eq_nil_iff.mpr hw
  have h0 : dateTextAt ('I' :: 'n' :: 'v' :: 'o' :: 'i' :: 'c' :: 'e' :: ' ' :: 'D' ::
      'a' :: 't' :: 'e' :: w.toList) = none := by
    rw [show dateTextAt ('I' :: 'n' :: 'v' :: 'o' :: 'i' :: 'c' :: 'e' :: ' ' :: 'D' ::
      'a' :: 't' :: 'e' :: w.toList) = firstSome (dateTextTail w.toList) none from rfl,
      dateTextTail_none_nil hd]
    rfl
  have hall : ∀ n, dateTextAt (List.drop n ('I' :: 'n' :: 'v' :: 'o' :: 'i' :: 'c' ::
      'e' :: ' ' :: 'D' :: 'a' :: 't' :: 'e' :: w.toList)) = none := fun n =>
    match n with
    | 0 => h0
    | 1 => rfl
    | 2 => rfl
    | 3 => rfl
    | 4 => rfl
    | 5 => rfl
    | 6 => rfl
    | 7 => rfl
    | 8 => rfl
    | 9 => rfl
    | 10 => rfl
    | 11 => rfl
    | (k + 12) => dateTextAt_none_colonSpace (List.drop k w.toList)
        (fun x hx => hw x (List.mem_of_mem_drop hx))
  rw [show ("Invoice Date" ++ w).toList = 'I' :: 'n' :: 'v' :: 'o' :: 'i' :: 'c' ::
    'e' :: ' ' :: 'D' :: 'a' :: 't' :: 'e' :: w.toList from rfl]
  exact searchM_none_of_all _ _ hall

theorem dateNumSearch_billdate (w : String)
    (hw : ∀ c ∈ w.toList, isColonSpace c = true) :
    searchM dateNumAt (("Bill Date" ++ w).toList) = none := by
  have hd : w.toList.dropWhile isColonSpace = [] := List.dropWhile_eq_nil_iff.mpr hw
  have hall : ∀ n, dateNumAt (List.drop n ('B' :: 'i' :: 'l' :: 'l' :: ' ' :: 'D' ::
      'a' :: 't' :: 'e' :: w.toList)) = none := fun n =>
    match n with
    | 0 => rfl
    | 1 => rfl
    | 2 => rfl
    | 3 => rfl
    | 4 => rfl
    | 5 => dateNumAt_date_nil hd
    | 6 => rfl
    | 7 => rfl
    | 8 => rfl
    | (k + 9) => dateNumAt_none_colonSpace (List.drop k w.toList)
        (fun x hx => hw x (List.mem_of_mem_drop hx))
  rw [show ("Bill Date" ++ w).toList = 'B' :: 'i' :: 'l' :: 'l' :: ' ' :: 'D' ::
    'a' :: 't' :: 'e' :: w.toList from rfl]
  exact searchM_none_of_all _ _ hall

theorem dateTextSearch_billdate (w : String)
    (hw : ∀ c ∈ w.toList, isColonSpace c = true) :
    searchM dateTextAt (("Bill Date" ++ w).toList) = none := by
  have hd : w.toList.dropWhile isColonSpace = [] := List.dropWhile_eq_nil_iff.mpr hw
  have h0 : dateTextAt ('B' :: 'i' :: 'l' :: 'l' :: ' ' :: 'D' :: 'a' :: 't' :: 'e' ::
      w.toList) = none := by
    rw [show dateTextAt ('B' :: 'i' :: 'l' :: 'l' :: ' ' :: 'D' :: 'a' :: 't' :: 'e' ::
      w.toList) = dateTextTail w.toList from rfl, dateTextTail_none_nil hd]
  have hall : ∀ n, dateTextAt (List.drop n ('B' :: 'i' :: 'l' :: 'l' :: ' ' :: 'D' ::
      'a' :: 't' :: 'e' :: w.toList)) = none := fun n =>
    match n with
    | 0 => h0
    | 1 => rfl
    | 2 => rfl
    | 3 => rfl
    | 4 => rfl
    | 5 => rfl
    | 6 => rfl
    | 7 => rfl
    | 8 => rfl
    | (k + 9) => dateTextAt_none_colonSpace (List.drop k w.toList)
        (fun x hx => hw x (List.mem_of_mem_drop hx))
  rw [show ("Bill Date" ++ w).toList = 'B' :: 'i' :: 'l' :: 'l' :: ' ' :: 'D' ::
    'a' :: 't' :: 'e' :: w.toList from rfl]
  exact searchM_none_of_all _ _ hall

theorem sellerSearch_from (w : String) (hw : ∀ c ∈ w.toList, isColonSpace c = true) :
    searchM sellerAt (("From" ++ w).toList) = some [] := by
  have hd : w.toList.dropWhile isColonSpace = [] := List.dropWhile_eq_nil_iff.mpr hw
  have hm : sellerAt ('F' :: 'r' :: 'o' :: 'm' :: w.toList) = some [] := by
    rw [show sellerAt ('F' :: 'r' :: 'o' :: 'm' :: w.toList) =
      some ((w.toList.dropWhile isColonSpace).takeWhile (fun c => c != '\n')) from rfl,
      hd]
    rfl
  rw [show ("From" ++ w).toList = 'F' :: 'r' :: 'o' :: 'm' :: w.toList from rfl]
  exact searchM_cons_some hm

theorem sellerSearch_seller (w : String) (hw : ∀ c ∈ w.toList, isColonSpace c = true) :
    searchM sellerAt (("Seller" ++ w).toList) = some [] := by
  have hd : w.toList.dropWhile isColonSpace = [] := List.dropWhile_eq_nil_iff.mpr hw
  have hm : sellerAt ('S' :: 'e' :: 'l' :: 'l' :: 'e' :: 'r' :: w.toList) = some [] := by
    rw [show sellerAt ('S' :: 'e' :: 'l' :: 'l' :: 'e' :: 'r' :: w.toList) =
      some ((w.toList.dropWhile isColonSpace).takeWhile (fun c => c != '\n')) from rfl,
      hd]
    rfl
  rw [show ("Seller" ++ w).toList = 'S' :: 'e' :: 'l' :: 'l' :: 'e' :: 'r' :: w.toList from rfl]
  exact searchM_cons_some hm

theorem sellerSearch_vendor (w : String) (hw : ∀ c ∈ w.toList, isColonSpace c = true) :
    searchM sellerAt (("Vendor" ++ w).toList) = some [] := by
  have hd : w.toList.dropWhile isColonSpace = [] := List.dropWhile_eq_nil_iff.mpr hw
  have hm : sellerAt ('V' :: 'e' :: 'n' :: 'd' :: 'o' :: 'r' :: w.toList) = some [] := by
    rw [show sellerAt ('V' :: 'e' :: 'n' :: 'd' :: 'o' :: 'r' :: w.toList) =
      some ((w.toList.dropWhile isColonSpace).takeWhile (fun c => c != '\n')) from rfl,
      hd]
    rfl
  rw [show ("Vendor" ++ w).toList = 'V' :: 'e' :: 'n' :: 'd' :: 'o' :: 'r' :: w.toList from rfl]
  exact searchM_cons_some hm

theorem buyerSearch_billto (w : String) (hw : ∀ c ∈ w.toList, isColonSpace c = true) :
    searchM buyerAt (("Bill To" ++ w).toList) = some [] := by
  have hd : w.toList.dropWhile isColonSpace = [] := List.dropWhile_eq_nil_iff.mpr hw
  have hm : buyerAt ('B' :: 'i' :: 'l' :: 'l' :: ' ' :: 'T' :: 'o' :: w.toList) =
      some [] := by
    rw [show buyerAt ('B' :: 'i' :: 'l' :: 'l' :: ' ' :: 'T' :: 'o' :: w.toList) =
      some ((w.toList.dropWhile isColonSpace).takeWhile (fun c => c != '\n')) from rfl,
      hd]
    rfl
  rw [show ("Bill To" ++ w).toList =
    'B' :: 'i' :: 'l' :: 'l' :: ' ' :: 'T' :: 'o' :: w.toList from rfl]
  exact searchM_cons_some hm

/-- C7 amended: for every field and every one of its labels, an input
text that starts with that label (hence the leftmost match for that
field) followed by nothing but colons and whitespace up to the end of
the input yields the empty string for that field's slot, without
raising: for buyer/seller the capture group is empty, for amount/date
the pattern has no match anywhere in such a text.  The original claim's
clause "even when content exists on subsequent lines" is false (see the
counterexample): the `[:\s]*` run after a label crosses newlines, so
non-whitespace content on a later line is captured instead. -/
theorem C7_amended (w : String) (hw : ∀ c ∈ w.toList, isColonSpace c = true) :
    ((extract_info_from_text ("From" ++ w)).seller = "" ∧
     (extract_info_from_text ("Seller" ++ w)).seller = "" ∧
     (extract_info_from_text ("Vendor" ++ w)).seller = "") ∧
    (extract_info_from_text ("Bill To" ++ w)).buyer = "" ∧
    ((extract_info_from_text ("Total" ++ w)).amount = "" ∧
     (extract_info_from_text ("Amount" ++ w)).amount = "" ∧
     (extract_info_from_text ("Balance due" ++ w)).amount = "" ∧
     (extract_info_from_text ("Invoice Total" ++ w)).amount = "") ∧
    ((extract_info_from_text ("Date" ++ w)).date = "" ∧
     (extract_info_from_text ("Invoice Date" ++ w)).date = "" ∧
     (extract_info_from_text ("Bill Date" ++ w)).date = "") :=
  ⟨⟨sellerField_of_empty (sellerSearch_from w hw),
    sellerField_of_empty (sellerSearch_seller w hw),
    sellerField_of_empty (sellerSearch_vendor w hw)⟩,
   buyerField_of_empty (buyerSearch_billto w hw),
   ⟨amountField_of_none (amountSearch_total w hw),
    amountField_of_none (amountSearch_amount w hw),
    amountField_of_none (amountSearch_balance w hw),
    amountField_of_none (amountSearch_invoicetotal w hw)⟩,
   ⟨dateField_of_none (dateNumSearch_date w hw) (dateTextSearch_date w hw),
    dateField_of_none (dateNumSearch_invoicedate w hw) (dateTextSearch_invoicedate w hw),
    dateField_of_none (dateNumSearch_billdate w hw) (dateTextSearch_billdate w hw)⟩⟩

theorem C7_amended_witness :
    (extract_info_from_text ("Vendor" ++ ": \n ")).seller = "" :=
  (C7_amended ": \n " (by decide)).1.2.2

/-- The amount field never contains a newline and is stripped at both
ends: its characters are digits or dots, and `strip` ends never leave
whitespace. -/
theorem amountField_props (cs : List Char) :
    '\n' ∉ (amountField cs).toList ∧
    (∀ c, (amountField cs).toList.head? = some c → isPySpace c = false) ∧
    (∀ c, (amountField cs).toList.getLast? = some c → isPySpace c = false) := by
  unfold amountField
  cases h : searchM amountAt cs with
  | none =>
    refine ⟨by simp, ?_, ?_⟩ <;> intro c hc <;> simp at hc
  | some g =>
    obtain ⟨s, hsg⟩ := searchM_some h
    have hchars := amountAt_chars hsg
    refine ⟨?_, ?_, ?_⟩
    · intro hmem
      have hmem2 : '\n' ∈ pyStrip (g.filter (fun c => c != ',')) := hmem
      have hmem3 := mem_pyStrip hmem2
      have hmem4 := (List.mem_filter.mp hmem3).1
      rcases hchars '\n' hmem4 with hd | hc | hc
      · exact absurd hd (by decide)
      · exact absurd hc (by decide)
      · exact absurd hc (by decide)
    · intro c hc
      exact pyStrip_head hc
    · intro c hc
      exact pyStrip_getLast hc

/-- The buyer field never contains a newline and is stripped at both
ends. -/
theorem buyerField_props (cs : List Char) :
    '\n' ∉ (buyerField cs).toList ∧
    (∀ c, (buyerField cs).toList.head? = some c → isPySpace c = false) ∧
    (∀ c, (buyerField cs).toList.getLast? = some c → isPySpace c = false) := by
  unfold buyerField
  cases h : searchM buyerAt cs with
  | none =>
    refine ⟨by simp, ?_, ?_⟩ <;> intro c hc <;> simp at hc
  | some g =>
    obtain ⟨s, hsg⟩ := searchM_some h
    have hnl := buyerAt_noNewline hsg
    have hnostrip : ∀ a ∈ pyStrip g, a ≠ '\n' := fun a ha => hnl a (mem_pyStrip ha)
    have hsplit : splitHead (pyStrip g) = pyStrip g := by
      unfold splitHead
      apply List.takeWhile_eq_self_iff.mpr
      intro x hx
      simpa using hnostrip x hx
    refine ⟨?_, ?_, ?_⟩
    · intro hmem
      have hmem2 : '\n' ∈ splitHead (pyStrip g) := hmem
      rw [hsplit] at hmem2
      exact hnostrip _ hmem2 rfl
    · intro c hc
      have hc2 : (splitHead (pyStrip g)).head? = some c := hc
      rw [hsplit] at hc2
      exact pyStrip_head hc2
    · intro c hc
      have hc2 : (splitHead (pyStrip g)).getLast? = some c := hc
      rw [hsplit] at hc2
      exact pyStrip_getLast hc2

/-- The seller field never contains a newline and is stripped at both
ends. -/
theorem sellerField_props (cs : List Char) :
    '\n' ∉ (sellerField cs).toList ∧
    (∀ c, (sellerField cs).toList.head? = some c → isPySpace c = false) ∧
    (∀ c, (sellerField cs).toList.getLast? = some c → isPySpace c = false) := by
  unfold sellerField
  cases h : searchM sellerAt cs with
  | none =>
    refine ⟨by simp, ?_, ?_⟩ <;> intro c hc <;> simp at hc
  | some g =>
    obtain ⟨s, hsg⟩ := searchM_some h
    have hnl := sellerAt_noNewline hsg
    have hnostrip : ∀ a ∈ pyStrip g, a ≠ '\n' := fun a ha => hnl a (mem_pyStrip ha)
    have hsplit : splitHead (pyStrip g) = pyStrip g := by
      unfold splitHead
      apply List.takeWhile_eq_self_iff.mpr
      intro x hx
      simpa using hnostrip x hx
    refine ⟨?_, ?_, ?_⟩
    · intro hmem
      have hmem2 : '\n' ∈ splitHead (pyStrip g) := hmem
      rw [hsplit] at hmem2
      exact hnostrip _ hmem2 rfl
    · intro c hc
      have hc2 : (splitHead (pyStrip g)).head? = some c := hc
      rw [hsplit] at hc2
      exact pyStrip_head hc2
    · intro c hc
      have hc2 : (splitHead (pyStrip g)).getLast? = some c := hc
      rw [hsplit] at hc2
      exact pyStrip_getLast hc2

/-- The date field is stripped at both ends (it may, however, contain an
interior newline from the textual pattern). -/
theorem dateField_props (cs : List Char) :
    (∀ c, (dateField cs).toList.head? = some c → isPySpace c = false) ∧
    (∀ c, (dateField cs).toList.getLast? = some c → isPySpace c = false) := by
  unfold dateField
  cases h : firstSome (searchM dateNumAt cs) (searchM dateTextAt cs) with
  | none =>
    refine ⟨?_, ?_⟩ <;> intro c hc <;> simp at hc
  | some g =>
    exact ⟨fun c hc => pyStrip_head hc, fun c hc => pyStrip_getLast hc⟩

/-- C10 amended: every field value has no leading or trailing whitespace,
and the amount, buyer and seller fields contain no newline at all; the
date field may contain an interior newline (see the counterexample), so
the no-newline part of the claim holds for the other three fields only. -/
theorem C10_amended (t : String) :
    ('\n' ∉ (extract_info_from_text t).amount.toList ∧
     '\n' ∉ (extract_info_from_text t).buyer.toList ∧
     '\n' ∉ (extract_info_from_text t).seller.toList) ∧
    (∀ c, (extract_info_from_text t).amount.toList.head? = some c → isPySpace c = false) ∧
    (∀ c, (extract_info_from_text t).amount.toList.getLast? = some c → isPySpace c = false) ∧
    (∀ c, (extract_info_from_text t).buyer.toList.head? = some c → isPySpace c = false) ∧
    (∀ c, (extract_info_from_text t).buyer.toList.getLast? = some c → isPySpace c = false) ∧
    (∀ c, (extract_info_from_text t).seller.toList.head? = some c → isPySpace c = false) ∧
    (∀ c, (extract_info_from_text t).seller.toList.getLast? = some c → isPySpace c = false) ∧
    (∀ c, (extract_info_from_text t).date.toList.head? = some c → isPySpace c = false) ∧
    (∀ c, (extract_info_from_text t).date.toList.getLast? = some c → isPySpace c = false) :=
  ⟨⟨(amountField_props t.toList).1, (buyerField_props t.toList).1,
    (sellerField_props t.toList).1⟩,
   (amountField_props t.toList).2.1, (amountField_props t.toList).2.2,
   (buyerField_props t.toList).2.1, (buyerField_props t.toList).2.2,
   (sellerField_props t.toList).2.1, (sellerField_props t.toList).2.2,
   (dateField_props t.toList).1, (dateField_props t.toList).2⟩

theorem C10_amended_witness :
    '\n' ∉ (extract_info_from_text "Total: $1,234.56").amount.toList :=
  (C10_amended "Total: $1,234.56").1.1

theorem C2_exactly_four_string_fields_witness :
    (extractDict "Total: $1,234.56").map Prod.fst = ["amount", "buyer", "seller", "date"] :=
  (C2_exactly_four_string_fields "Total: $1,234.56").1

end InvoiceProcessor
